import Mathlib

/-!
Verification of the dynamic taxonomy classification engine of the
GCH-Data-Ingestion-ADK repository, shallowly embedded from the Python source:

* data/models/subcategory_schemas.py   (data model, update_metadata)
* data/database/simple_firestore_client.py   (simplified store client)
* data/database/firestore_client.py    (transactional store client)
* data/processors/subcategory_classifier.py  (classifier / orchestrator)
* data/processors/enhanced_subcategory_processor.py (analytics entry point)

Strings are modelled as Lean `String` with ASCII case conversion (the data the
engine manipulates is ASCII), `float` confidence values as `ℚ`, Python `uuid4`
identifiers as `Nat` drawn from a freshness counter, and the Python dict
backing the mock store as an insertion-ordered list of entries.  Fallible
Python code is modelled with `Except PyErr`.
-/

/-- Python exception value (only the message is observable here). -/
structure PyErr where
  msg : String
deriving DecidableEq, Repr

/-! ## Character / string helpers (Python `str` operations, ASCII model) -/

/-- Python `str.lower()` on a character list (ASCII model). -/
def pyLower (l : List Char) : List Char :=
  l.map Char.toLower

/-- Python `str.strip()` : drop leading and trailing whitespace. -/
def pyStripWs (l : List Char) : List Char :=
  ((l.dropWhile Char.isWhitespace).reverse.dropWhile Char.isWhitespace).reverse

/-- Python `name.lower().strip()` as a String-to-String operation. -/
def pyLowerStrip (s : String) : String :=
  String.mk (pyStripWs (pyLower s.data))

/-- Whether `q` is a prefix of `s` (Boolean, over character lists). -/
def charsHavePre (q s : List Char) : Bool :=
  match q, s with
  | [], _ => true
  | _ :: _, [] => false
  | a :: as, b :: bs => a == b && charsHavePre as bs

/-- Python `q in s` substring test over character lists: `q` occurs
contiguously in `s` (the empty string occurs in everything). -/
def charsContain (s q : List Char) : Bool :=
  match s with
  | [] => charsHavePre q []
  | _ :: rest => charsHavePre q s || charsContain rest q

/-- Python `q in s` substring test on Strings. -/
def strContains (s q : String) : Bool :=
  charsContain s.data q.data

/-- Python `text.split()` : split on whitespace runs, dropping empty pieces. -/
def pySplit (s : String) : List String :=
  (s.data.splitOnP Char.isWhitespace).map String.mk |>.filter (fun w => w ≠ "")

/-! ## Data model (data/models/subcategory_schemas.py) -/

/-- EventTopic enumeration (data/models/schemas.py lines 11-16). -/
inductive EventTopic
  | traffic
  | infrastructure
  | weather
  | events
  | safety
deriving DecidableEq, Repr

/-- Wire value of a topic (the Python enum is a str Enum). -/
def EventTopic.value : EventTopic → String
  | .traffic => "traffic"
  | .infrastructure => "infrastructure"
  | .weather => "weather"
  | .events => "events"
  | .safety => "safety"

/-- SubcategorySource enumeration (subcategory_schemas.py lines 20-25). -/
inductive SubcategorySource
  | predefined
  | ai_generated
  | user_submitted
  | admin_added
deriving DecidableEq, Repr

/-- SubcategoryStatus enumeration (subcategory_schemas.py lines 27-32). -/
inductive SubcategoryStatus
  | active
  | deprecated
  | merged
  | pending_review
deriving DecidableEq, Repr

/-- SubcategoryMetadata (subcategory_schemas.py lines 39-47).  The
`last_used` / `creation_confidence` timestamp fields are not modelled (no
claim mentions them); confidence scores are exact rationals. -/
structure SubcategoryMetadata where
  usage_count : Nat := 0
  confidence_scores : List ℚ := []
  user_confirmations : Nat := 0
  user_rejections : Nat := 0
  avg_confidence : Option ℚ := none
deriving DecidableEq, Repr

/-- Subcategory (subcategory_schemas.py lines 58-80).  `id` models the
uuid4 string as a Nat drawn from a freshness counter; of the relationship
fields only `aliases` is modelled (parent/child/merge links are untouched by
every claim). -/
structure Subcategory where
  id : Nat
  name : String
  topic : EventTopic
  display_name : String
  description : Option String := none
  source : SubcategorySource
  status : SubcategoryStatus := .active
  aliases : List String := []
  metadata : SubcategoryMetadata := {}
  created_by : Option String := none
deriving DecidableEq, Repr

/-- Python slice `scores[-10:]` : the most recent at-most-10 entries. -/
def pyLastTen (l : List ℚ) : List ℚ :=
  l.drop (l.length - 10)

/-- SubcategoryMetadata update, embedding Subcategory.update_metadata
(subcategory_schemas.py lines 89-106): increment usage unconditionally,
append the confidence and recompute the rolling average over the last 10
scores only when a confidence is supplied, bump the feedback counters per
flag. -/
def SubcategoryMetadata.update (m : SubcategoryMetadata)
    (confidence_score : Option ℚ) (user_confirmed user_rejected : Bool) :
    SubcategoryMetadata :=
  let m1 := { m with usage_count := m.usage_count + 1 }
  let m2 :=
    match confidence_score with
    | none => m1
    | some c =>
      let scores := m1.confidence_scores ++ [c]
      let recent := pyLastTen scores
      { m1 with
          confidence_scores := scores
          avg_confidence := some (recent.sum / (recent.length : ℚ)) }
  let m3 :=
    if user_confirmed then
      { m2 with user_confirmations := m2.user_confirmations + 1 }
    else m2
  if user_rejected then
    { m3 with user_rejections := m3.user_rejections + 1 }
  else m3

/-- Subcategory.update_metadata lifted to the whole entry. -/
def Subcategory.update_metadata (sc : Subcategory)
    (confidence_score : Option ℚ) (user_confirmed user_rejected : Bool) :
    Subcategory :=
  { sc with metadata := sc.metadata.update confidence_score user_confirmed user_rejected }

/-- One updateUsage invocation's arguments. -/
structure UsageCall where
  confidence : Option ℚ
  confirmed : Bool := false
  rejected : Bool := false
deriving DecidableEq, Repr

/-- Apply a sequence of update_metadata calls in order. -/
def applyUsageCalls (m : SubcategoryMetadata) : List UsageCall → SubcategoryMetadata
  | [] => m
  | c :: rest => applyUsageCalls (m.update c.confidence c.confirmed c.rejected) rest

/-- The confidence observations actually supplied by a call sequence. -/
def suppliedScores (calls : List UsageCall) : List ℚ :=
  calls.filterMap (fun c => c.confidence)

/-! ## Subcategory name normalization
(subcategory_classifier.py, _clean_subcategory_name, lines 261-275) -/

/-- Characters the regex `[^a-zA-Z0-9_\-]` leaves untouched. -/
def allowedChar (c : Char) : Bool :=
  c.isAlphanum || c == '_' || c == '-'

/-- `re.sub(r'[^a-zA-Z0-9_\-]', '_', s)` : replace every disallowed
character with an underscore. -/
def replaceDisallowed (l : List Char) : List Char :=
  l.map (fun c => if allowedChar c then c else '_')

/-- `re.sub(r'_+', '_', s)` : collapse each run of underscores to one. -/
def collapseUnderscores : List Char → List Char
  | [] => []
  | [c] => [c]
  | c :: d :: rest =>
    if c == '_' && d == '_' then collapseUnderscores (d :: rest)
    else c :: collapseUnderscores (d :: rest)

/-- Python `s.strip('_')` : drop leading and trailing underscores. -/
def stripUnderscores (l : List Char) : List Char :=
  ((l.dropWhile (fun c => c == '_')).reverse.dropWhile (fun c => c == '_')).reverse

/-- _clean_subcategory_name (subcategory_classifier.py lines 261-275):
empty input maps to "general"; otherwise lowercase and whitespace-strip,
replace disallowed characters by underscores, collapse underscore runs,
strip edge underscores, and map an empty result to "general". -/
def clean_subcategory_name (name : String) : String :=
  if name = "" then "general"
  else
    let lowered := pyStripWs (pyLower name.data)
    let cleaned := stripUnderscores (collapseUnderscores (replaceDisallowed lowered))
    if cleaned = [] then "general" else String.mk cleaned

/-- Modelled from the spec: normalization exactly as the spec sentence
describes it — lowercase, replace every character that is not alphanumeric,
underscore or hyphen with an underscore, collapse repeated underscores,
trim leading/trailing underscores, empty result becomes "general" (no
whitespace pre-strip is mentioned). -/
def specNormalizeName (name : String) : String :=
  let cleaned := stripUnderscores (collapseUnderscores (replaceDisallowed (pyLower name.data)))
  if cleaned = [] then "general" else String.mk cleaned

/-! ## The taxonomy store state

The simplified client keeps its development backing store in `self._mock_data`,
a Python dict keyed by entry id (simple_firestore_client.py lines 57, 387-396).
A dict preserves insertion order, so the state is an insertion-ordered entry
list plus a freshness counter standing for uuid4 generation. -/

/-- Store state: entry list in insertion order, plus the next fresh id. -/
structure Store where
  entries : List Subcategory := []
  nextId : Nat := 0
deriving DecidableEq, Repr

def emptyStore : Store := {}

/-- get_subcategories_by_topic (simple_firestore_client.py lines 188-215,
mock branch): all entries of the topic, optionally filtered by status. -/
def get_subcategories_by_topic (st : Store) (topic : EventTopic)
    (status : Option SubcategoryStatus) : List Subcategory :=
  st.entries.filter (fun sc =>
    sc.topic = topic ∧ (status = none ∨ status = some sc.status))

/-- _find_subcategory_by_name_or_alias (simple_firestore_client.py lines
291-302): first ACTIVE entry of the topic whose canonical name equals
`name.lower().strip()`, or that lists it among its (lowercased) aliases. -/
def find_subcategory_by_name_or_alias (st : Store) (topic : EventTopic)
    (name : String) : Option Subcategory :=
  let name_lower := pyLowerStrip name
  (get_subcategories_by_topic st topic (some .active)).find? (fun sc =>
    sc.name = name_lower ∨ name_lower ∈ sc.aliases.map (fun a => String.mk (pyLower a.data)))

/-- _get_subcategory_by_name, Firestore branch (simple_firestore_client.py
lines 304-325 and firestore_client.py lines 354-379): first entry matching
the topic and the normalized name exactly — no status filter, no aliases. -/
def get_subcategory_by_name_q (st : Store) (topic : EventTopic)
    (name : String) : Option Subcategory :=
  st.entries.find? (fun sc => sc.topic = topic ∧ sc.name = pyLowerStrip name)

/-- _mock_create_subcategory (simple_firestore_client.py lines 387-396):
keyed only on the entry id; reports success whether or not it inserts. -/
def mock_create_subcategory (st : Store) (sc : Subcategory) : Bool × Store :=
  if st.entries.any (fun e => e.id = sc.id) then (true, st)
  else (true, { st with entries := st.entries ++ [sc] })

/-- create_subcategory of the simplified client, Firestore branch
(simple_firestore_client.py lines 137-164): an entry with the same
(topic, name) makes the call report success without writing anything;
otherwise the document is written.  Never returns false on a duplicate. -/
def create_subcategory_simple (st : Store) (sc : Subcategory) : Bool × Store :=
  match get_subcategory_by_name_q st sc.topic sc.name with
  | some _ => (true, st)
  | none => (true, { st with entries := st.entries ++ [sc] })

/-- create_subcategory of the transactional client
(firestore_client.py lines 96-142): inside the transaction an entry with
the same (topic, name) aborts the creation with result false; otherwise
the document is written and the call returns true. -/
def create_subcategory_tx (st : Store) (sc : Subcategory) : Bool × Store :=
  match get_subcategory_by_name_q st sc.topic sc.name with
  | some _ => (false, st)
  | none => (true, { st with entries := st.entries ++ [sc] })

/-- update_subcategory_usage (simple_firestore_client.py lines 217-250,
mock branch): look the entry up by id, mutate its metadata in place via
update_metadata, return whether it was found. -/
def update_subcategory_usage (st : Store) (id : Nat)
    (confidence_score : Option ℚ) (user_confirmed user_rejected : Bool) :
    Bool × Store :=
  if st.entries.any (fun e => e.id = id) then
    (true,
     { st with entries := st.entries.map (fun e =>
         if e.id = id then e.update_metadata confidence_score user_confirmed user_rejected
         else e) })
  else (false, st)

/-! ## Subcategory construction (pydantic validation) -/

/-- The pydantic name validator (subcategory_schemas.py lines 82-87) plus
the field length bounds: after removing underscores and hyphens the name
must be nonempty and alphanumeric, and 1 ≤ len(name) ≤ 50. -/
def validSubName (s : String) : Bool :=
  let core := s.data.filter (fun c => ¬ (c = '_' ∨ c = '-'))
  1 ≤ s.data.length && s.data.length ≤ 50 && core ≠ [] && core.all Char.isAlphanum

/-- Python `str.title()` (ASCII model): uppercase each letter that does not
follow a letter, lowercase the rest. -/
def pyTitleAux : Bool → List Char → List Char
  | _, [] => []
  | prevAlpha, c :: rest =>
    (if c.isAlpha then (if prevAlpha then c.toLower else c.toUpper) else c)
      :: pyTitleAux c.isAlpha rest

def pyTitle (s : String) : String :=
  String.mk (pyTitleAux false s.data)

/-- Python `name.replace('_', ' ')`. -/
def underscoresToSpaces (s : String) : String :=
  String.mk (s.data.map (fun c => if c = '_' then ' ' else c))

/-- Constructing `Subcategory(...)`: pydantic runs the name validator
(lowercasing and stripping the stored name) and raises on an invalid name;
a fresh uuid4 id is taken from the freshness counter. -/
def mkSubcategory (id : Nat) (name : String) (topic : EventTopic)
    (display_name : String) (description : Option String)
    (source : SubcategorySource) (created_by : Option String) :
    Except PyErr Subcategory :=
  if validSubName name then
    .ok { id := id, name := pyLowerStrip name, topic := topic,
          display_name := display_name, description := description,
          source := source, status := .active, aliases := [],
          metadata := {}, created_by := created_by }
  else
    .error { msg := "ValidationError: invalid subcategory name" }

/-! ## Similarity search
(search_similar_subcategories, simple_firestore_client.py lines 327-367 and
firestore_client.py lines 257-300 — identical scoring loop) -/

/-- The per-entry scoring step of the search loop, taking the already
lowercased query: 1.0 on lowercase name equality, else 0.8 / 0.6 / 0.7 /
0.4 for a substring hit on name / display name / an alias / the
description, else 0. -/
def similarity_score (query_lower : String) (sc : Subcategory) : ℚ :=
  if String.mk (pyLower sc.name.data) = query_lower then 1
  else if strContains (String.mk (pyLower sc.name.data)) query_lower then 4/5
  else if strContains (String.mk (pyLower sc.display_name.data)) query_lower then 3/5
  else if sc.aliases.any (fun a => strContains (String.mk (pyLower a.data)) query_lower) then 7/10
  else
    match sc.description with
    | some d => if strContains (String.mk (pyLower d.data)) query_lower then 2/5 else 0
    | none => 0

/-- Stable insertion for the descending sort: the new pair walks past
strictly greater scores only and stops before the first entry whose score
is not greater.  The fold below inserts earlier input elements last, so an
earlier element lands before entries of equal score — exactly Python's
stable sort(reverse=True) tie order. -/
def insertByScoreDesc (p : Subcategory × ℚ) :
    List (Subcategory × ℚ) → List (Subcategory × ℚ)
  | [] => [p]
  | q :: rest => if p.2 < q.2 then q :: insertByScoreDesc p rest else p :: q :: rest

/-- `results.sort(key=lambda x: x[1], reverse=True)` : stable descending
sort by score. -/
def sortByScoreDesc : List (Subcategory × ℚ) → List (Subcategory × ℚ)
  | [] => []
  | p :: rest => insertByScoreDesc p (sortByScoreDesc rest)

/-- The search over a given entry list: score every entry against the
lowercased query, keep strictly positive scores, sort by score descending
(stable) and cap at max_results. -/
def search_similar_core (entries : List Subcategory) (query_text : String)
    (max_results : Nat) : List (Subcategory × ℚ) :=
  let query_lower := String.mk (pyLower query_text.data)
  let results :=
    (entries.map (fun sc => (sc, similarity_score query_lower sc))).filter
      (fun p => 0 < p.2)
  (sortByScoreDesc results).take max_results

/-- search_similar_subcategories: the loop runs over the ACTIVE entries of
the topic. -/
def search_similar_subcategories (st : Store) (topic : EventTopic)
    (query_text : String) (max_results : Nat) : List (Subcategory × ℚ) :=
  search_similar_core (get_subcategories_by_topic st topic (some .active))
    query_text max_results

/-- Modelled from the claim's words for C4: score 1.0 on case-insensitive
TRIMMED equality of query and name (the code never trims), with the
remaining tiers as in the code. -/
def claimTrimmedScore (query : String) (sc : Subcategory) : ℚ :=
  if pyLowerStrip query = pyLowerStrip sc.name then 1
  else similarity_score (String.mk (pyLower query.data)) sc

/-- Modelled from the amended claim for C4: the same scoring policy with
case-insensitive (lowercased) but untrimmed comparisons throughout. -/
def amendedScore (query : String) (sc : Subcategory) : ℚ :=
  let ql := String.mk (pyLower query.data)
  if String.mk (pyLower sc.name.data) = ql then 1
  else if strContains (String.mk (pyLower sc.name.data)) ql then 4/5
  else if strContains (String.mk (pyLower sc.display_name.data)) ql then 3/5
  else if sc.aliases.any (fun a => strContains (String.mk (pyLower a.data)) ql) then 7/10
  else
    match sc.description with
    | some d => if strContains (String.mk (pyLower d.data)) ql then 2/5 else 0
    | none => 0

/-! ## Classifier data (subcategory_classifier.py) -/

/-- ClassificationContext (subcategory_schemas.py lines 113-120);
location/media/user context join the prompt only and are not modelled. -/
structure ClassificationContext where
  event_title : String
  event_description : String
  existing_subcategories : List String := []
deriving DecidableEq, Repr

/-- ClassificationResult (subcategory_schemas.py lines 122-133). -/
structure ClassificationResult where
  subcategory_name : String
  confidence_score : ℚ
  is_new_subcategory : Bool := false
  reasoning : Option String := none
  alternative_suggestions : List String := []
  new_subcategory_id : Option Nat := none
  display_name : Option String := none
  description : Option String := none
deriving DecidableEq, Repr

/-- SubcategoryClassificationRequest (subcategory_schemas.py lines 135-140). -/
structure SubcategoryClassificationRequest where
  topic : EventTopic
  context : ClassificationContext
  force_create_new : Bool := false
  min_confidence_threshold : ℚ := 7/10
deriving DecidableEq, Repr

/-- FALLBACK_SUBCATEGORIES (subcategory_classifier.py lines 44-85), in
source (dict-insertion) order. -/
def fallbackSeeds : EventTopic → List (String × String)
  | .traffic =>
    [("accident", "Vehicle accidents and collisions"),
     ("congestion", "Traffic jams and slow movement"),
     ("closure", "Road closures and blockages"),
     ("construction", "Road work and maintenance"),
     ("breakdown", "Vehicle breakdowns"),
     ("signal_issue", "Traffic signal problems")]
  | .infrastructure =>
    [("power_outage", "Electricity supply disruption"),
     ("water_supply", "Water availability issues"),
     ("road_damage", "Damaged roads and potholes"),
     ("maintenance", "Scheduled infrastructure work"),
     ("network_issue", "Internet and telecom problems"),
     ("waste_management", "Garbage collection issues")]
  | .weather =>
    [("rain", "Rainfall and precipitation"),
     ("flood", "Waterlogging and flooding"),
     ("storm", "Severe weather conditions"),
     ("heat", "High temperature conditions"),
     ("wind", "Strong wind conditions"),
     ("fog", "Low visibility due to fog")]
  | .events =>
    [("cultural", "Cultural festivals and celebrations"),
     ("sports", "Sports events and competitions"),
     ("tech", "Technology events and meetups"),
     ("music", "Concerts and musical events"),
     ("political", "Political rallies and meetings"),
     ("religious", "Religious gatherings and festivals")]
  | .safety =>
    [("fire", "Fire emergencies and incidents"),
     ("emergency", "General emergency situations"),
     ("security", "Security and safety concerns"),
     ("medical", "Medical emergencies"),
     ("crime", "Criminal activities"),
     ("accident", "Safety-related accidents")]

/-- _calculate_text_similarity (subcategory_classifier.py lines 361-372):
Jaccard overlap of the lowercase word sets; 0 when either set is empty. -/
def calculate_text_similarity (text1 text2 : String) : ℚ :=
  let words1 := (pySplit (String.mk (pyLower text1.data))).dedup
  let words2 := (pySplit (String.mk (pyLower text2.data))).dedup
  if words1 = [] ∨ words2 = [] then 0
  else
    let inter := words1.filter (fun w => w ∈ words2)
    let union := words1 ++ words2.filter (fun w => w ∉ words1)
    (inter.length : ℚ) / (union.length : ℚ)

/-- One iteration of the seed-selection loop of _classify_with_fallback
(lines 327-331): replace the best candidate on a strictly greater
similarity score against "name description". -/
def fallbackStep (title_desc : String) (best : String × ℚ) (p : String × String) :
    String × ℚ :=
  let score := calculate_text_similarity title_desc (p.1 ++ " " ++ p.2)
  if best.2 < score then (p.1, score) else best

/-- The seed-selection loop of _classify_with_fallback (lines 321-331):
fold over the topic's seed table, starting from ("general", 0.2). -/
def fallbackBest (topic : EventTopic) (title_desc : String) : String × ℚ :=
  (fallbackSeeds topic).foldl (fallbackStep title_desc) ("general", 1/5)

/-! ## The classifier's store-client boundary

`self.firestore_client` is an object the classifier does not control; each
call to one of its methods is network-backed and may raise (the spec treats
the store as an external capability that may signal connectivity failure).
A StoreClient instance fixes the behavior of each method as a state
transformer that either returns or raises; `mockStoreClient` is the faithful
embedding of the simplified client over its mock backing store (which never
raises), `failingStoreClient` models an unreachable store. -/

structure StoreClient where
  get_by_topic : Store → EventTopic → Option SubcategoryStatus →
    Except PyErr (List Subcategory) × Store
  find_by_name_or_alias : Store → EventTopic → String →
    Except PyErr (Option Subcategory) × Store
  get_or_create : Store → EventTopic → String → Option String → Option String →
    SubcategorySource → Option String → Except PyErr (Subcategory × Bool) × Store
  update_usage : Store → Nat → Option ℚ → Except PyErr Bool × Store

/-- The tail of get_or_create_subcategory after the initial lookup
(simple_firestore_client.py lines 261-289): on a hit return it with
created=false; otherwise construct the entry (validation may raise), write
it through create_subcategory (mock backend), and on a failed write re-read
by name, raising only when the re-read also misses. -/
def get_or_create_rest (st : Store) (found : Option Subcategory)
    (topic : EventTopic) (name : String)
    (display_name description : Option String) (source : SubcategorySource)
    (created_by : Option String) : Except PyErr ((Subcategory × Bool) × Store) :=
  match found with
  | some sc => .ok ((sc, false), st)
  | none =>
    match mkSubcategory st.nextId (pyLowerStrip name) topic
        (display_name.getD (pyTitle name)) description source created_by with
    | .error e => .error e
    | .ok sc =>
      let (success, st2) := mock_create_subcategory { st with nextId := st.nextId + 1 } sc
      if success then .ok ((sc, true), st2)
      else
        match find_subcategory_by_name_or_alias st2 topic name with
        | some sc2 => .ok ((sc2, false), st2)
        | none => .error { msg := "Failed to create subcategory" }

/-- get_or_create_subcategory (simple_firestore_client.py lines 252-289):
find by name or alias, then the creation tail. -/
def get_or_create_subcategory (st : Store) (topic : EventTopic) (name : String)
    (display_name description : Option String) (source : SubcategorySource)
    (created_by : Option String) : Except PyErr ((Subcategory × Bool) × Store) :=
  get_or_create_rest st (find_subcategory_by_name_or_alias st topic name)
    topic name display_name description source created_by

/-- Two concurrent get_or_create_subcategory calls for the same
(topic, name), interleaved at the await boundary the source exposes: both
tasks run the lookup against the same store snapshot, then both run the
creation tail in turn.  The source serializes nothing (the simplified
client's docstring: "without complex transactions"). -/
def get_or_create_pair_interleaved (st : Store) (topic : EventTopic)
    (name : String) (display_name description : Option String)
    (source : SubcategorySource) (created_by : Option String) :
    Except PyErr ((Subcategory × Bool) × (Subcategory × Bool) × Store) :=
  let f1 := find_subcategory_by_name_or_alias st topic name
  let f2 := find_subcategory_by_name_or_alias st topic name
  match get_or_create_rest st f1 topic name display_name description source created_by with
  | .error e => .error e
  | .ok (r1, st1) =>
    match get_or_create_rest st1 f2 topic name display_name description source created_by with
    | .error e => .error e
    | .ok (r2, st2) => .ok (r1, r2, st2)

/-- The faithful simplified client over its mock backing store. -/
def mockStoreClient : StoreClient where
  get_by_topic := fun st t status => (.ok (get_subcategories_by_topic st t status), st)
  find_by_name_or_alias := fun st t n => (.ok (find_subcategory_by_name_or_alias st t n), st)
  get_or_create := fun st t n dn d s cb =>
    match get_or_create_subcategory st t n dn d s cb with
    | .ok (res, st2) => (.ok res, st2)
    | .error e => (.error e, st)
  update_usage := fun st id conf =>
    (.ok (update_subcategory_usage st id conf false false).1,
     (update_subcategory_usage st id conf false false).2)

/-- An unreachable store: every client call raises `e`. -/
def failingStoreClient (e : PyErr) : StoreClient where
  get_by_topic := fun st _ _ => (.error e, st)
  find_by_name_or_alias := fun st _ _ => (.error e, st)
  get_or_create := fun st _ _ _ _ _ _ => (.error e, st)
  update_usage := fun st _ _ => (.error e, st)

/-! ## Classifier orchestration (subcategory_classifier.py lines 101-418) -/

/-- Python truthiness of an optional string (None and "" are falsy). -/
def pyTruthyStr : Option String → Bool
  | none => false
  | some s => s ≠ ""

/-- _find_or_create_subcategory (subcategory_classifier.py lines 378-418):
look up by name or alias through the client; on a miss derive display
name, description (AI reasoning if truthy, else the seed table) and source,
then get_or_create through the client.  Every exception is swallowed into
None; the created flag of get_or_create is dropped. -/
def find_or_create_subcategory (cl : StoreClient) (st : Store)
    (topic : EventTopic) (name : String)
    (ai_result : Option ClassificationResult) (created_by : String) :
    Option Subcategory × Store :=
  match cl.find_by_name_or_alias st topic name with
  | (.error _, st1) => (none, st1)
  | (.ok (some sc), st1) => (some sc, st1)
  | (.ok none, st1) =>
    let display_name := pyTitle (underscoresToSpaces name)
    let seedDescr := ((fallbackSeeds topic).find? (fun p => p.1 = name)).map (fun p => p.2)
    let description :=
      match ai_result with
      | some r => if pyTruthyStr r.reasoning then r.reasoning else seedDescr
      | none => seedDescr
    let source :=
      match ai_result with
      | some _ => SubcategorySource.ai_generated
      | none => SubcategorySource.predefined
    match cl.get_or_create st1 topic name (some display_name) description source (some created_by) with
    | (.error _, st2) => (none, st2)
    | (.ok (sc, _created), st2) => (some sc, st2)

/-- The result _classify_with_fallback's except-handler produces
(subcategory_classifier.py lines 351-359). -/
def fallback_fail_result : ClassificationResult :=
  { subcategory_name := "general", confidence_score := 1/10,
    is_new_subcategory := false,
    reasoning := some "Fallback classification failed",
    alternative_suggestions := [] }

/-- The normal return value of _classify_with_fallback (lines 343-349). -/
def mkFallbackResult (topic : EventTopic) (best : String × ℚ) :
    ClassificationResult :=
  { subcategory_name := best.1, confidence_score := best.2,
    is_new_subcategory := false,
    reasoning := some ("Fallback rule-based classification for " ++ topic.value),
    alternative_suggestions := ((fallbackSeeds topic).map (fun p => p.1)).take 3 }

/-- _classify_with_fallback (subcategory_classifier.py lines 315-359):
pick the best seed by token overlap, best-effort persist it through the
client, and return the chosen name and score; an exception inside the body
is caught and turned into the 0.1 "general" result. -/
def classify_with_fallback (cl : StoreClient) (st : Store)
    (req : SubcategoryClassificationRequest) : ClassificationResult × Store :=
  let title_desc :=
    String.mk (pyLower (req.context.event_title ++ " " ++ req.context.event_description).data)
  let best := fallbackBest req.topic title_desc
  match find_or_create_subcategory cl st req.topic best.1 none "fallback_classification" with
  | (some sc, st2) =>
    (match cl.update_usage st2 sc.id (some best.2) with
     | (.error _, st3) => (fallback_fail_result, st3)
     | (.ok _, st3) => (mkFallbackResult req.topic best, st3))
  | (none, st2) => (mkFallbackResult req.topic best, st2)

/-- The body of classify_subcategory's try block (lines 103-142): snapshot
the active names, try the AI tier, and on success at or above the threshold
resolve and record the result; otherwise fall back.  `ai` is the outcome of
the opaque _classify_with_ai tier (lines 155-176), which catches its own
exceptions into None — an .error outcome therefore collapses to None. -/
def classify_body (cl : StoreClient)
    (ai : Except PyErr (Option ClassificationResult)) (st : Store)
    (req : SubcategoryClassificationRequest) :
    Except PyErr ClassificationResult × Store :=
  match cl.get_by_topic st req.topic (some .active) with
  | (.error e, st1) => (.error e, st1)
  | (.ok existing, st1) =>
    let req1 := { req with context :=
      { req.context with existing_subcategories := existing.map (fun sc => sc.name) } }
    let ai_result : Option ClassificationResult :=
      match ai with
      | .error _ => none
      | .ok r => r
    match ai_result with
    | some a =>
      if req1.min_confidence_threshold ≤ a.confidence_score then
        match find_or_create_subcategory cl st1 req1.topic a.subcategory_name (some a) "ai_classification" with
        | (some sc, st2) =>
          (match cl.update_usage st2 sc.id (some a.confidence_score) with
           | (.error e, st3) => (.error e, st3)
           | (.ok _, st3) =>
             (.ok { subcategory_name := sc.name,
                    confidence_score := a.confidence_score,
                    is_new_subcategory := a.is_new_subcategory,
                    reasoning := a.reasoning,
                    alternative_suggestions := a.alternative_suggestions,
                    new_subcategory_id := if a.is_new_subcategory then some sc.id else none,
                    display_name := some sc.display_name,
                    description := sc.description }, st3))
        | (none, st2) =>
          let (r, st3) := classify_with_fallback cl st2 req1
          (.ok r, st3)
      else
        let (r, st2) := classify_with_fallback cl st1 req1
        (.ok r, st2)
    | none =>
      let (r, st2) := classify_with_fallback cl st1 req1
      (.ok r, st2)

/-- The last-resort result of classify_subcategory's except handler
(lines 144-153). -/
def general_fail_result (e : PyErr) : ClassificationResult :=
  { subcategory_name := "general", confidence_score := 1/10,
    is_new_subcategory := false,
    reasoning := some ("Classification failed: " ++ e.msg),
    alternative_suggestions := [] }

/-- classify_subcategory (subcategory_classifier.py lines 101-153): the
try body, with every escaping exception mapped to the last-resort
"general" result. -/
def classify_subcategory (cl : StoreClient)
    (ai : Except PyErr (Option ClassificationResult)) (st : Store)
    (req : SubcategoryClassificationRequest) : ClassificationResult × Store :=
  match classify_body cl ai st req with
  | (.ok r, st2) => (r, st2)
  | (.error e, st2) => (general_fail_result e, st2)

/-! ## Predefined seeding (subcategory_classifier.py lines 424-451) -/

/-- The topics in iteration order of FALLBACK_SUBCATEGORIES. -/
def allTopics : List EventTopic :=
  [.traffic, .infrastructure, .weather, .events, .safety]

/-- initialize_predefined_subcategories over the simplified client in mock
mode: for every topic and seed, construct a fresh Subcategory (fresh uuid,
display name from the seed name) and write it through create_subcategory,
which in mock mode is _mock_create_subcategory — keyed by the fresh id
only.  An exception would abort the sweep (the outer except). -/
def seed_predefined_subcategories (st : Store) : Except PyErr Store :=
  allTopics.foldlM
    (fun st t =>
      (fallbackSeeds t).foldlM
        (fun st p =>
          match mkSubcategory st.nextId p.1 t (pyTitle (underscoresToSpaces p.1))
              (some p.2) .predefined (some "system") with
          | .error e => .error e
          | .ok sc =>
            .ok (mock_create_subcategory { st with nextId := st.nextId + 1 } sc).2)
        st)
    st

/-! ## Enhanced processor analytics (enhanced_subcategory_processor.py) -/

/-- The attribute names the simplified client's class body defines
(simple_firestore_client.py lines 39-396). -/
def simpleClientMethodNames : List String :=
  ["initialize", "_test_connection", "create_subcategory", "get_subcategory",
   "get_subcategories_by_topic", "update_subcategory_usage",
   "get_or_create_subcategory", "_find_subcategory_by_name_or_alias",
   "_get_subcategory_by_name", "search_similar_subcategories",
   "health_check", "_mock_create_subcategory"]

/-- Python attribute lookup: a name the class does not define raises
AttributeError. -/
def pyGetattrCheck (methods : List String) (name : String) : Except PyErr Unit :=
  if name ∈ methods then .ok ()
  else .error { msg := "AttributeError: " ++ name }

/-- get_subcategory_analytics of the enhanced processor
(enhanced_subcategory_processor.py lines 547-581): it calls
self.firestore_client.get_subcategory_analytics() where the bound client is
the simplified client (lines 27, 38); the attribute lookup on that object
raises, the surrounding except swallows the error and returns None.  The
report the dead success branch would shape is abstracted to Unit — no
run can reach it. -/
def enhanced_get_subcategory_analytics (st : Store) : Option Unit :=
  match pyGetattrCheck simpleClientMethodNames "get_subcategory_analytics" with
  | .error _ => none
  | .ok _ => some ()

/-- The lowercased "title description" text the fallback scores against
(subcategory_classifier.py line 319). -/
def requestTitleDesc (req : SubcategoryClassificationRequest) : String :=
  String.mk (pyLower (req.context.event_title ++ " " ++ req.context.event_description).data)

/-! ## Concrete sample data used by the concrete theorems below -/

/-- A predefined active traffic entry named "jam". -/
def jamEntry : Subcategory :=
  { id := 0, name := "jam", topic := .traffic, display_name := "Jam",
    source := .predefined }

/-- A store holding exactly the "jam" entry. -/
def stJam : Store :=
  { entries := [jamEntry], nextId := 1 }

/-- A second, distinct entry carrying the same (topic, name) pair. -/
def jamDup : Subcategory :=
  { id := 1, name := "jam", topic := .traffic, display_name := "Jam Again",
    source := .user_submitted }

/-- An AI tier outcome that proposes "jam" with high confidence and
asserts it would be a new subcategory. -/
def aiJamNew : ClassificationResult :=
  { subcategory_name := "jam", confidence_score := 9/10,
    is_new_subcategory := true, reasoning := some "matched a jam report",
    alternative_suggestions := ["congestion"] }

/-- A sample classification request (threshold 0.7, the model default). -/
def reqTraffic : SubcategoryClassificationRequest :=
  { topic := .traffic,
    context := { event_title := "Big jam", event_description := "standstill on ring road" } }

/-- Eleven usage calls, each supplying a confidence observation 1..11. -/
def elevenCalls : List UsageCall :=
  (List.range 11).map (fun i => { confidence := some ((i : ℚ) + 1) })

/-! ## Claim theorems -/

/-- C1: the uniqueness invariant fails on the code.  Two concurrent
get_or_create_subcategory("traffic", "jam") calls whose lookups both run
before either creation (the simplified client serializes nothing between
its find and its create) leave TWO active entries with (traffic, "jam"),
with distinct ids 0 and 1, and each caller is handed its own entry with
created=true — not one shared entry. -/
theorem get_or_create_race_duplicates :
    (get_or_create_pair_interleaved emptyStore .traffic "jam" (some "Jam") none
        .ai_generated (some "ai_classification")).toOption.map
      (fun out =>
        ((out.2.2.entries.filter (fun e =>
            e.topic = .traffic ∧ e.name = "jam" ∧ e.status = .active)).length,
         out.1.1.id, out.2.1.1.id, out.1.2, out.2.1.2))
      = some (2, 0, 1, true, true) := by
  decide

set_option maxRecDepth 8000 in
/-- C9: seeding is not idempotent on the code.  Running the predefined
bootstrap twice over the mock store yields 60 entries where one run yields
30: the mock create is keyed on the fresh uuid only, so the second run
re-creates every seed — e.g. (traffic, "accident") is present once after
one run and twice after two. -/
theorem seed_twice_duplicates :
    ((seed_predefined_subcategories emptyStore).bind (fun st1 =>
        (seed_predefined_subcategories st1).map (fun st2 =>
          ((st1.entries.filter (fun e =>
              e.topic = .traffic ∧ e.name = "accident" ∧ e.status = .active)).length,
           (st2.entries.filter (fun e =>
              e.topic = .traffic ∧ e.name = "accident" ∧ e.status = .active)).length,
           st1.entries.length, st2.entries.length)))).toOption
      = some (1, 2, 30, 60) := by
  decide

/-- C10: for every store state the enhanced processor's analytics report
is None: the bound simplified client defines no get_subcategory_analytics
attribute, the call raises AttributeError, and the handler swallows it. -/
theorem enhanced_analytics_always_none :
    ∀ st : Store, enhanced_get_subcategory_analytics st = none := by
  intro st
  rfl

/-- C3 counterexample: with an active (traffic, "jam") entry already in
the store, the simplified client's create of a second (traffic, "jam")
entry returns true — not false as the claim states. -/
theorem create_simple_true_on_existing :
    (create_subcategory_simple stJam jamDup).1 = true := by
  decide

/-- C4 counterexample: for the query "jam " (trailing blank) against an
entry named "jam", the claim's case-insensitive TRIMMED equality assigns
score 1.0, but the code never trims: the search returns no result at all
for this entry list. -/
theorem search_no_trim_counterexample :
    search_similar_core [jamEntry] "jam " 10 = [] ∧
    claimTrimmedScore "jam " jamEntry = 1 := by
  with_unfolding_all decide

/-- C8 counterexample: the AI proposes "jam" (confidence 0.9) and labels
it new; the store already holds the (traffic, "jam") entry, so the
resolution finds it and creates nothing (store returned unchanged) — yet
the returned result still carries is_new_subcategory = true, the AI's
flag, not the store's created outcome. -/
theorem classify_is_new_flag_is_ai_flag :
    ((classify_subcategory mockStoreClient (.ok (some aiJamNew)) stJam reqTraffic).1).is_new_subcategory
        = true ∧
    find_or_create_subcategory mockStoreClient stJam .traffic "jam" (some aiJamNew)
        "ai_classification" = (some jamEntry, stJam) := by
  with_unfolding_all decide

/-- C2: the classify entry point never propagates an exception.  (i) Any
exception escaping the try body is mapped to the last-resort result built
from it.  (ii) With the store reachable (the faithful mock client), no
exception even reaches the handler, whatever the AI tier did — threw,
returned garbage (collapsed to none by its own handler) or returned any
result.  (iii) With the AI throwing and every store call raising, the
caller still receives the last-resort result, whose fields are
"general" / 0.1 / false. -/
theorem classify_subcategory_never_raises :
    (∀ cl ai st req e, (classify_body cl ai st req).1 = .error e →
        (classify_subcategory cl ai st req).1 = general_fail_result e) ∧
    (∀ ai st req, ∃ r st2,
        classify_body mockStoreClient ai st req = (.ok r, st2)) ∧
    (∀ st req e, classify_subcategory (failingStoreClient e) (.error e) st req
        = (general_fail_result e, st)) ∧
    (∀ e, (general_fail_result e).subcategory_name = "general" ∧
        (general_fail_result e).confidence_score = 1/10 ∧
        (general_fail_result e).is_new_subcategory = false) := by
  refine ⟨?_, ?_, ?_, ?_⟩
  · intro cl ai st req e h
    unfold classify_subcategory
    rcases hb : classify_body cl ai st req with ⟨res, st2⟩
    rw [hb] at h
    simp only at h
    subst h
    simp
  · intro ai st req
    unfold classify_body
    simp only [mockStoreClient]
    repeat' split
    all_goals exact ⟨_, _, rfl⟩
  · intro st req e
    rfl
  · intro e
    exact ⟨rfl, rfl, rfl⟩

/-- C2 witness: at a concrete request with the store down and the AI
down, the try body errors and the entry point returns the last-resort
result. -/
theorem classify_subcategory_never_raises_witness :
    (classify_subcategory (failingStoreClient { msg := "db down" })
        (.error { msg := "ai down" }) emptyStore reqTraffic).1
      = general_fail_result { msg := "db down" } :=
  classify_subcategory_never_raises.1 (failingStoreClient { msg := "db down" })
    (.error { msg := "ai down" }) emptyStore reqTraffic { msg := "db down" } rfl

/-- C3 amended: on an existing (topic, normalized-name) match — any
status — the transactional client's create returns false without writing,
while the simplified client returns true without writing; with no such
match both persist the entry and return true. -/
theorem create_subcategory_existing_name_behavior :
    ∀ (st : Store) (sc : Subcategory),
      ((∃ e ∈ st.entries, e.topic = sc.topic ∧ e.name = pyLowerStrip sc.name) →
        create_subcategory_tx st sc = (false, st) ∧
        create_subcategory_simple st sc = (true, st)) ∧
      ((∀ e ∈ st.entries, ¬(e.topic = sc.topic ∧ e.name = pyLowerStrip sc.name)) →
        create_subcategory_tx st sc = (true, { st with entries := st.entries ++ [sc] }) ∧
        create_subcategory_simple st sc = (true, { st with entries := st.entries ++ [sc] })) := by
  intro st sc
  constructor
  · rintro ⟨e, he, hcond⟩
    have hsome : (get_subcategory_by_name_q st sc.topic sc.name).isSome := by
      unfold get_subcategory_by_name_q
      rw [List.find?_isSome]
      exact ⟨e, he, by simp only [decide_eq_true_eq]; exact hcond⟩
    rcases hx : get_subcategory_by_name_q st sc.topic sc.name with _ | v
    · rw [hx] at hsome
      simp at hsome
    · constructor <;> simp [create_subcategory_tx, create_subcategory_simple, hx]
  · intro hall
    have hnone : get_subcategory_by_name_q st sc.topic sc.name = none := by
      unfold get_subcategory_by_name_q
      rw [List.find?_eq_none]
      intro e he
      simp only [decide_eq_true_eq]
      exact hall e he
    constructor <;> simp [create_subcategory_tx, create_subcategory_simple, hnone]

/-- C3 amended witness: concrete duplicate creation — the transactional
client refuses (false), the simplified client reports success (true), and
neither writes. -/
theorem create_subcategory_existing_name_behavior_witness :
    create_subcategory_tx stJam jamDup = (false, stJam) ∧
    create_subcategory_simple stJam jamDup = (true, stJam) :=
  (create_subcategory_existing_name_behavior stJam jamDup).1
    ⟨jamEntry, by decide, by decide⟩

/-- Inserting into the score-sorted list is a permutation of consing. -/
theorem insertByScoreDesc_perm (p : Subcategory × ℚ) (l : List (Subcategory × ℚ)) :
    List.Perm (insertByScoreDesc p l) (p :: l) := by
  induction l with
  | nil => exact List.Perm.refl _
  | cons q rest ih =>
    unfold insertByScoreDesc
    by_cases h : p.2 < q.2
    · simp only [if_pos h]
      exact (ih.cons q).trans (List.Perm.swap p q rest)
    · simp only [if_neg h]
      exact List.Perm.refl _

/-- The stable sort permutes its input. -/
theorem sortByScoreDesc_perm (l : List (Subcategory × ℚ)) :
    List.Perm (sortByScoreDesc l) l := by
  induction l with
  | nil => exact List.Perm.refl _
  | cons p rest ih =>
    exact (insertByScoreDesc_perm p _).trans (ih.cons p)

/-- Membership after insertion. -/
theorem mem_insertByScoreDesc {x p : Subcategory × ℚ} {l : List (Subcategory × ℚ)} :
    x ∈ insertByScoreDesc p l ↔ x = p ∨ x ∈ l := by
  rw [(insertByScoreDesc_perm p l).mem_iff]
  simp

/-- Insertion preserves the descending-score pairwise order. -/
theorem pairwise_insertByScoreDesc (p : Subcategory × ℚ)
    {l : List (Subcategory × ℚ)}
    (h : List.Pairwise (fun a b => b.2 ≤ a.2) l) :
    List.Pairwise (fun a b => b.2 ≤ a.2) (insertByScoreDesc p l) := by
  induction l with
  | nil => simp [insertByScoreDesc]
  | cons q rest ih =>
    rcases List.pairwise_cons.mp h with ⟨hq, hrest⟩
    unfold insertByScoreDesc
    by_cases hlt : p.2 < q.2
    · simp only [if_pos hlt]
      refine List.pairwise_cons.mpr ⟨?_, ih hrest⟩
      intro b hb
      rcases mem_insertByScoreDesc.mp hb with rfl | hb2
      · exact le_of_lt hlt
      · exact hq b hb2
    · simp only [if_neg hlt]
      refine List.pairwise_cons.mpr ⟨?_, h⟩
      intro b hb
      rcases List.mem_cons.mp hb with rfl | hb2
      · exact le_of_not_lt hlt
      · exact le_trans (hq b hb2) (le_of_not_lt hlt)

/-- The sort output is pairwise descending in score. -/
theorem pairwise_sortByScoreDesc (l : List (Subcategory × ℚ)) :
    List.Pairwise (fun a b => b.2 ≤ a.2) (sortByScoreDesc l) := by
  induction l with
  | nil => simp [sortByScoreDesc]
  | cons p rest ih => exact pairwise_insertByScoreDesc p ih

/-- The amended-claim scorer coincides with the loop's scorer applied to
the lowercased query. -/
theorem amendedScore_eq (query : String) (sc : Subcategory) :
    amendedScore query sc = similarity_score (String.mk (pyLower query.data)) sc := rfl

/-- Per-score slice of an insertion: entries passed over all score
strictly higher than the inserted pair, so within any fixed score the
inserted pair lands first and every other order is untouched. -/
theorem filter_insertByScoreDesc (p : Subcategory × ℚ)
    (l : List (Subcategory × ℚ)) (s : ℚ) :
    (insertByScoreDesc p l).filter (fun q => q.2 = s)
      = if p.2 = s then p :: l.filter (fun q => q.2 = s)
        else l.filter (fun q => q.2 = s) := by
  induction l with
  | nil =>
    by_cases hp : p.2 = s <;> simp [insertByScoreDesc, List.filter_cons, hp]
  | cons q rest ih =>
    by_cases hlt : p.2 < q.2
    · rw [show insertByScoreDesc p (q :: rest) = q :: insertByScoreDesc p rest from by
        simp [insertByScoreDesc, hlt]]
      by_cases hq : q.2 = s
      · have hp : ¬ p.2 = s := by
          rw [← hq]
          exact ne_of_lt hlt
        simp [List.filter_cons, hq, hp, ih]
      · by_cases hp : p.2 = s <;> simp [List.filter_cons, hq, hp, ih]
    · rw [show insertByScoreDesc p (q :: rest) = p :: q :: rest from by
        simp [insertByScoreDesc, hlt]]
      by_cases hp : p.2 = s <;> simp [List.filter_cons, hp]

/-- Stability of the sort: for every fixed score, the sorted output lists
exactly the input's pairs of that score in their input order. -/
theorem filter_score_sortByScoreDesc (l : List (Subcategory × ℚ)) (s : ℚ) :
    (sortByScoreDesc l).filter (fun q => q.2 = s)
      = l.filter (fun q => q.2 = s) := by
  induction l with
  | nil => rfl
  | cons p rest ih =>
    rw [show sortByScoreDesc (p :: rest) = insertByScoreDesc p (sortByScoreDesc rest)
      from rfl]
    rw [filter_insertByScoreDesc]
    by_cases hp : p.2 = s <;> simp [List.filter_cons, hp, ih]

/-- C4 amended: the search over any entry list equals the k-prefix of the
stable descending sort of the positively scored pairs, where each entry is
scored by the case-insensitive (untrimmed) policy: the sorted list is a
permutation of the scored pairs, pairwise descending in score, and within
any fixed score keeps the input order (Python's stable tie order), so the
cap truncates to the top of that order; the output length is exactly
min(limit, number of positive scores); every returned pair is a scored
input entry with positive score, and every positively scored entry is
returned whenever the limit allows. -/
theorem search_similar_core_props :
    ∀ (entries : List Subcategory) (query : String) (k : Nat),
      search_similar_core entries query k
        = (sortByScoreDesc ((entries.map (fun e => (e, amendedScore query e))).filter
            (fun p => 0 < p.2))).take k ∧
      List.Perm
        (sortByScoreDesc ((entries.map (fun e => (e, amendedScore query e))).filter
          (fun p => 0 < p.2)))
        ((entries.map (fun e => (e, amendedScore query e))).filter (fun p => 0 < p.2)) ∧
      List.Pairwise (fun a b => b.2 ≤ a.2)
        (sortByScoreDesc ((entries.map (fun e => (e, amendedScore query e))).filter
          (fun p => 0 < p.2))) ∧
      (∀ s : ℚ,
        (sortByScoreDesc ((entries.map (fun e => (e, amendedScore query e))).filter
          (fun p => 0 < p.2))).filter (fun p => p.2 = s)
          = ((entries.map (fun e => (e, amendedScore query e))).filter
              (fun p => 0 < p.2)).filter (fun p => p.2 = s)) ∧
      (search_similar_core entries query k).length
        = min k ((entries.map (fun e => (e, amendedScore query e))).filter
            (fun p => 0 < p.2)).length ∧
      List.Pairwise (fun a b => b.2 ≤ a.2) (search_similar_core entries query k) ∧
      (∀ p ∈ search_similar_core entries query k,
          p.1 ∈ entries ∧ p.2 = amendedScore query p.1 ∧ 0 < p.2) ∧
      (∀ e ∈ entries, 0 < amendedScore query e → entries.length ≤ k →
          (e, amendedScore query e) ∈ search_similar_core entries query k) := by
  intro entries query k
  have hcore : search_similar_core entries query k
      = (sortByScoreDesc ((entries.map (fun e => (e, amendedScore query e))).filter
          (fun p => 0 < p.2))).take k := rfl
  have hperm := sortByScoreDesc_perm
    ((entries.map (fun e => (e, amendedScore query e))).filter (fun p => 0 < p.2))
  refine ⟨hcore, hperm, pairwise_sortByScoreDesc _,
    fun s => filter_score_sortByScoreDesc _ s, ?_, ?_, ?_, ?_⟩
  · rw [hcore, List.length_take, hperm.length_eq]
  · rw [hcore]
    exact List.Pairwise.sublist (List.take_sublist k _) (pairwise_sortByScoreDesc _)
  · intro p hp
    rw [hcore] at hp
    have hp2 : p ∈ sortByScoreDesc ((entries.map (fun e =>
        (e, amendedScore query e))).filter (fun p => 0 < p.2)) :=
      List.take_subset k _ hp
    have hp3 := hperm.mem_iff.mp hp2
    rcases List.mem_filter.mp hp3 with ⟨hmap, hpos⟩
    rcases List.mem_map.mp hmap with ⟨e, he, heq⟩
    subst heq
    refine ⟨he, rfl, ?_⟩
    simpa using hpos
  · intro e he hpos hk
    have hmem : (e, amendedScore query e) ∈
        (entries.map (fun e => (e, amendedScore query e))).filter
          (fun p => 0 < p.2) := by
      refine List.mem_filter.mpr ⟨List.mem_map_of_mem _ he, ?_⟩
      simpa using hpos
    have hlen : ((entries.map (fun e => (e, amendedScore query e))).filter
        (fun p => 0 < p.2)).length ≤ k := by
      calc ((entries.map (fun e => (e, amendedScore query e))).filter
              (fun p => 0 < p.2)).length
          ≤ (entries.map (fun e => (e, amendedScore query e))).length :=
            List.length_filter_le _ _
        _ = entries.length := List.length_map _ _
        _ ≤ k := hk
    have hsortlen : (sortByScoreDesc ((entries.map (fun e =>
        (e, amendedScore query e))).filter (fun p => 0 < p.2))).length ≤ k := by
      rw [hperm.length_eq]
      exact hlen
    rw [hcore, List.take_of_length_le hsortlen]
    exact hperm.mem_iff.mpr hmem

/-- C4 amended witness: the entry named "jam" scores positively for query
"jam" and is returned by the search. -/
theorem search_similar_core_props_witness :
    0 < amendedScore "jam" jamEntry ∧
    (jamEntry, amendedScore "jam" jamEntry) ∈ search_similar_core [jamEntry] "jam" 10 :=
  ⟨by with_unfolding_all decide,
   (search_similar_core_props [jamEntry] "jam" 10).2.2.2.2.2.2.2 jamEntry (by decide)
     (by with_unfolding_all decide) (by decide)⟩

/-- Invariants of the fallback seed-selection fold: the running best never
decreases, bounds every candidate seen, is either the start value or an
exact (name, score) from the list, and stays put when nothing beats it. -/
theorem fallbackFold_props (text : String) :
    ∀ (l : List (String × String)) (b : String × ℚ),
      b.2 ≤ (l.foldl (fallbackStep text) b).2 ∧
      (∀ p ∈ l, calculate_text_similarity text (p.1 ++ " " ++ p.2)
          ≤ (l.foldl (fallbackStep text) b).2) ∧
      (l.foldl (fallbackStep text) b = b ∨
        ∃ p ∈ l, (l.foldl (fallbackStep text) b).1 = p.1 ∧
          (l.foldl (fallbackStep text) b).2
            = calculate_text_similarity text (p.1 ++ " " ++ p.2)) ∧
      ((∀ p ∈ l, calculate_text_similarity text (p.1 ++ " " ++ p.2) ≤ b.2) →
        l.foldl (fallbackStep text) b = b) := by
  intro l
  induction l with
  | nil =>
    intro b
    refine ⟨le_refl _, ?_, Or.inl rfl, fun _ => rfl⟩
    intro p hp
    exact absurd hp (List.not_mem_nil p)
  | cons c rest ih =>
    intro b
    have hstep : List.foldl (fallbackStep text) b (c :: rest)
        = List.foldl (fallbackStep text) (fallbackStep text b c) rest := rfl
    by_cases hlt : b.2 < calculate_text_similarity text (c.1 ++ " " ++ c.2)
    · have hb2 : fallbackStep text b c
          = (c.1, calculate_text_similarity text (c.1 ++ " " ++ c.2)) := by
        simp only [fallbackStep]
        rw [if_pos hlt]
      obtain ⟨h1, h2, h3, _⟩ := ih (c.1, calculate_text_similarity text (c.1 ++ " " ++ c.2))
      rw [hstep, hb2]
      refine ⟨le_trans (le_of_lt hlt) h1, ?_, ?_, ?_⟩
      · intro p hp
        rcases List.mem_cons.mp hp with rfl | hp2
        · exact h1
        · exact h2 p hp2
      · rcases h3 with heq | ⟨p, hp, hn, hs⟩
        · right
          refine ⟨c, List.mem_cons_self c rest, ?_, ?_⟩
          · rw [heq]
          · rw [heq]
        · right
          exact ⟨p, List.mem_cons_of_mem c hp, hn, hs⟩
      · intro hall
        exact absurd (hall c (List.mem_cons_self c rest)) (not_le_of_lt hlt)
    · have hb2 : fallbackStep text b c = b := by
        simp only [fallbackStep]
        rw [if_neg hlt]
      obtain ⟨h1, h2, h3, h4⟩ := ih b
      rw [hstep, hb2]
      refine ⟨h1, ?_, ?_, ?_⟩
      · intro p hp
        rcases List.mem_cons.mp hp with rfl | hp2
        · exact le_trans (le_of_not_lt hlt) h1
        · exact h2 p hp2
      · rcases h3 with heq | ⟨p, hp, hn, hs⟩
        · exact Or.inl heq
        · exact Or.inr ⟨p, List.mem_cons_of_mem c hp, hn, hs⟩
      · intro hall
        exact h4 (fun p hp => hall p (List.mem_cons_of_mem c hp))

/-- C5: the rule-based fallback scores each seed pair by the Jaccard
word-set overlap between the text and "name description", returns
"general" at 0.2 exactly when no candidate exceeds the 0.2 floor, and
otherwise returns the (first) highest-scoring seed name with its score;
with the faithful mock client, _classify_with_fallback's returned result
carries exactly that name and score whatever the store state — the store
interaction never changes the classification. -/
theorem fallback_classifier_props :
    ∀ (topic : EventTopic) (text : String),
      ((∀ p ∈ fallbackSeeds topic,
          calculate_text_similarity text (p.1 ++ " " ++ p.2) ≤ 1/5) →
        fallbackBest topic text = ("general", 1/5)) ∧
      (∀ p ∈ fallbackSeeds topic,
          calculate_text_similarity text (p.1 ++ " " ++ p.2)
            ≤ (fallbackBest topic text).2) ∧
      (fallbackBest topic text = ("general", 1/5) ∨
        ∃ p ∈ fallbackSeeds topic, (fallbackBest topic text).1 = p.1 ∧
          (fallbackBest topic text).2
            = calculate_text_similarity text (p.1 ++ " " ++ p.2)) ∧
      (∀ (st : Store) (req : SubcategoryClassificationRequest),
          (classify_with_fallback mockStoreClient st req).1
            = mkFallbackResult req.topic (fallbackBest req.topic (requestTitleDesc req))) := by
  intro topic text
  obtain ⟨_, h2, h3, h4⟩ := fallbackFold_props text (fallbackSeeds topic) ("general", 1/5)
  refine ⟨h4, h2, h3, ?_⟩
  intro st req
  rcases hfc : find_or_create_subcategory mockStoreClient st req.topic
      (fallbackBest req.topic (String.mk (pyLower
        (req.context.event_title ++ " " ++ req.context.event_description).data))).1
      none "fallback_classification" with ⟨osc, st2⟩
  rcases osc with _ | sc
  · simp only [classify_with_fallback, fallbackBest, requestTitleDesc] at hfc ⊢
    rw [hfc]
  · simp only [classify_with_fallback, fallbackBest, requestTitleDesc] at hfc ⊢
    rw [hfc]
    rfl

/-- C5 witness: text sharing no token with any traffic seed stays at the
floor and yields "general" with score 0.2. -/
theorem fallback_classifier_props_witness :
    fallbackBest .traffic "zzz qqq" = ("general", 1/5) :=
  (fallback_classifier_props .traffic "zzz qqq").1 (by with_unfolding_all decide)

/-- C8 amended: when the AI tier returns a result at or above the
threshold and the taxonomy resolution yields an entry, the returned
result carries the resolved entry's canonical name, display name and
description — but its is_new_subcategory flag (and the id gating) is the
AI's own reported flag; the created outcome of the store resolution is
discarded by the code. -/
theorem classify_ai_branch_resolved_name :
    ∀ (st : Store) (req : SubcategoryClassificationRequest)
      (a : ClassificationResult) (sc : Subcategory) (st2 : Store),
      req.min_confidence_threshold ≤ a.confidence_score →
      find_or_create_subcategory mockStoreClient st req.topic a.subcategory_name
          (some a) "ai_classification" = (some sc, st2) →
      (classify_subcategory mockStoreClient (.ok (some a)) st req).1
        = { subcategory_name := sc.name,
            confidence_score := a.confidence_score,
            is_new_subcategory := a.is_new_subcategory,
            reasoning := a.reasoning,
            alternative_suggestions := a.alternative_suggestions,
            new_subcategory_id := if a.is_new_subcategory then some sc.id else none,
            display_name := some sc.display_name,
            description := sc.description } := by
  intro st req a sc st2 hth hfc
  unfold classify_subcategory classify_body
  simp only [mockStoreClient] at hfc ⊢
  rw [if_pos hth, hfc]

/-- C8 amended witness: the concrete run of the counterexample scenario,
showing the returned record is built from the resolved entry plus the
AI's flag. -/
theorem classify_ai_branch_resolved_name_witness :
    (classify_subcategory mockStoreClient (.ok (some aiJamNew)) stJam reqTraffic).1
      = { subcategory_name := jamEntry.name,
          confidence_score := aiJamNew.confidence_score,
          is_new_subcategory := aiJamNew.is_new_subcategory,
          reasoning := aiJamNew.reasoning,
          alternative_suggestions := aiJamNew.alternative_suggestions,
          new_subcategory_id := if aiJamNew.is_new_subcategory then some jamEntry.id else none,
          display_name := some jamEntry.display_name,
          description := jamEntry.description } :=
  classify_ai_branch_resolved_name stJam reqTraffic aiJamNew jamEntry stJam
    (by with_unfolding_all decide) (by with_unfolding_all decide)

/-- Field-level behavior of one update_metadata call. -/
theorem metadata_update_fields (m : SubcategoryMetadata) (conf : Option ℚ) (cf rj : Bool) :
    (m.update conf cf rj).usage_count = m.usage_count + 1 ∧
    (m.update conf cf rj).confidence_scores = m.confidence_scores ++ conf.toList ∧
    (m.update conf cf rj).user_confirmations
      = m.user_confirmations + (if cf then 1 else 0) ∧
    (m.update conf cf rj).user_rejections
      = m.user_rejections + (if rj then 1 else 0) ∧
    (m.update conf cf rj).avg_confidence
      = (match conf with
         | none => m.avg_confidence
         | some c => some ((pyLastTen (m.confidence_scores ++ [c])).sum
             / ((pyLastTen (m.confidence_scores ++ [c])).length : ℚ))) := by
  cases conf <;> cases cf <;> cases rj <;>
    simp [SubcategoryMetadata.update, Option.toList]

/-- C7: over any call sequence, usage_count grows by exactly the number of
calls; the confidence window receives exactly the supplied observations;
the feedback counters grow by exactly the flagged calls; avg_confidence is
untouched when no confidence was supplied and otherwise equals the mean of
the most recent at-most-10 observations — which is exactly 10 of them once
more than 10 observations exist. -/
theorem update_usage_metadata_accounting :
    ∀ (m : SubcategoryMetadata) (calls : List UsageCall),
      (applyUsageCalls m calls).usage_count = m.usage_count + calls.length ∧
      (applyUsageCalls m calls).confidence_scores
        = m.confidence_scores ++ suppliedScores calls ∧
      (applyUsageCalls m calls).user_confirmations
        = m.user_confirmations + (calls.filter (fun c => c.confirmed)).length ∧
      (applyUsageCalls m calls).user_rejections
        = m.user_rejections + (calls.filter (fun c => c.rejected)).length ∧
      (suppliedScores calls = [] →
        (applyUsageCalls m calls).avg_confidence = m.avg_confidence) ∧
      (suppliedScores calls ≠ [] →
        (applyUsageCalls m calls).avg_confidence
          = some ((pyLastTen (m.confidence_scores ++ suppliedScores calls)).sum
              / ((pyLastTen (m.confidence_scores ++ suppliedScores calls)).length : ℚ))) ∧
      (10 < (m.confidence_scores ++ suppliedScores calls).length →
        (pyLastTen (m.confidence_scores ++ suppliedScores calls)).length = 10) := by
  have hlen : ∀ l : List ℚ, 10 < l.length → (pyLastTen l).length = 10 := by
    intro l h
    simp only [pyLastTen, List.length_drop]
    omega
  intro m calls
  induction calls generalizing m with
  | nil =>
    refine ⟨by simp [applyUsageCalls], by simp [applyUsageCalls, suppliedScores],
      by simp [applyUsageCalls], by simp [applyUsageCalls],
      fun _ => by simp [applyUsageCalls], ?_, hlen _⟩
    intro h
    simp [suppliedScores] at h
  | cons c rest ih =>
    obtain ⟨f1, f2, f3, f4, f5⟩ :=
      metadata_update_fields m c.confidence c.confirmed c.rejected
    obtain ⟨i1, i2, i3, i4, i5, i6, _⟩ :=
      ih (m.update c.confidence c.confirmed c.rejected)
    have happ : applyUsageCalls m (c :: rest)
        = applyUsageCalls (m.update c.confidence c.confirmed c.rejected) rest := rfl
    have hsupp : suppliedScores (c :: rest)
        = c.confidence.toList ++ suppliedScores rest := by
      cases hc : c.confidence <;>
        simp [suppliedScores, List.filterMap_cons, hc, Option.toList]
    refine ⟨?_, ?_, ?_, ?_, ?_, ?_, hlen _⟩
    · rw [happ, i1, f1, List.length_cons]
      omega
    · rw [happ, i2, f2, hsupp, List.append_assoc]
    · rw [happ, i3, f3, List.filter_cons]
      cases hcf : c.confirmed <;> simp [hcf] <;> try omega
    · rw [happ, i4, f4, List.filter_cons]
      cases hrj : c.rejected <;> simp [hrj] <;> try omega
    · intro h
      rw [hsupp] at h
      rcases List.append_eq_nil.mp h with ⟨h1, h2⟩
      have hcnone : c.confidence = none := by
        cases hc : c.confidence
        · rfl
        · rw [hc] at h1
          simp [Option.toList] at h1
      have f5n : (m.update c.confidence c.confirmed c.rejected).avg_confidence
          = m.avg_confidence := by
        rw [f5, hcnone]
      rw [happ, i5 h2, f5n]
    · intro h
      cases hc : c.confidence with
      | none =>
        have hr : suppliedScores rest ≠ [] := by
          intro hr0
          apply h
          rw [hsupp, hc, hr0]
          simp [Option.toList]
        have f2n : (m.update c.confidence c.confirmed c.rejected).confidence_scores
            = m.confidence_scores := by
          rw [f2, hc]
          simp [Option.toList]
        have hs2 : suppliedScores (c :: rest) = suppliedScores rest := by
          rw [hsupp, hc]
          simp [Option.toList]
        rw [happ, i6 hr, f2n, hs2]
      | some v =>
        have hs2 : suppliedScores (c :: rest) = v :: suppliedScores rest := by
          rw [hsupp, hc]
          simp [Option.toList]
        by_cases hr : suppliedScores rest = []
        · have f5v : (m.update c.confidence c.confirmed c.rejected).avg_confidence
              = some ((pyLastTen (m.confidence_scores ++ [v])).sum
                  / ((pyLastTen (m.confidence_scores ++ [v])).length : ℚ)) := by
            rw [f5, hc]
          rw [happ, i5 hr, f5v, hs2, hr]
        · have f2v : (m.update c.confidence c.confirmed c.rejected).confidence_scores
              = m.confidence_scores ++ [v] := by
            rw [f2, hc]
            simp [Option.toList]
          rw [happ, i6 hr, f2v, hs2, List.append_assoc]
          simp only [List.singleton_append]

/-- C7 witness: eleven supplied observations on fresh metadata — the
average is over exactly the last 10 of them. -/
theorem update_usage_metadata_accounting_witness :
    suppliedScores elevenCalls ≠ [] ∧
    10 < (({} : SubcategoryMetadata).confidence_scores ++ suppliedScores elevenCalls).length ∧
    (applyUsageCalls {} elevenCalls).avg_confidence
      = some ((pyLastTen (({} : SubcategoryMetadata).confidence_scores
            ++ suppliedScores elevenCalls)).sum
          / ((pyLastTen (({} : SubcategoryMetadata).confidence_scores
            ++ suppliedScores elevenCalls)).length : ℚ)) ∧
    (pyLastTen (({} : SubcategoryMetadata).confidence_scores
        ++ suppliedScores elevenCalls)).length = 10 :=
  ⟨by with_unfolding_all decide,
   by with_unfolding_all decide,
   (update_usage_metadata_accounting {} elevenCalls).2.2.2.2.2.1
     (by with_unfolding_all decide),
   (update_usage_metadata_accounting {} elevenCalls).2.2.2.2.2.2
     (by with_unfolding_all decide)⟩

/-- Unfolding equation for the two-character window of the collapse. -/
theorem collapse_cons_cons (c d : Char) (rest : List Char) :
    collapseUnderscores (c :: d :: rest)
      = if c == '_' && d == '_' then collapseUnderscores (d :: rest)
        else c :: collapseUnderscores (d :: rest) := rfl

/-- A doubled leading underscore collapses away. -/
theorem collapse_uu (l : List Char) :
    collapseUnderscores ('_' :: '_' :: l) = collapseUnderscores ('_' :: l) := by
  rw [collapse_cons_cons]
  simp

/-- A non-underscore head passes through the collapse. -/
theorem collapse_cons_ne (c : Char) (l : List Char) (h : c ≠ '_') :
    collapseUnderscores (c :: l) = c :: collapseUnderscores l := by
  cases l with
  | nil => rfl
  | cons d rest =>
    rw [collapse_cons_cons]
    simp [h]

/-- Collapsing a nonempty list never empties it. -/
theorem collapse_ne_nil (l : List Char) (h : l ≠ []) :
    collapseUnderscores l ≠ [] := by
  induction l with
  | nil => exact absurd rfl h
  | cons c rest ih =>
    cases rest with
    | nil => simp [collapseUnderscores]
    | cons d r2 =>
      rw [collapse_cons_cons]
      by_cases hcd : (c == '_' && d == '_') = true
      · rw [if_pos hcd]
        exact ih (by simp)
      · rw [if_neg hcd]
        simp

/-- Dropping leading underscores absorbs a leading underscore fed to the
collapse. -/
theorem dropU_collapse_cons_u (m : List Char) :
    (collapseUnderscores ('_' :: m)).dropWhile (fun c => c == '_')
      = (collapseUnderscores m).dropWhile (fun c => c == '_') := by
  cases m with
  | nil => rfl
  | cons d m2 =>
    by_cases hd : d = '_'
    · subst hd
      rw [collapse_uu]
    · rw [collapse_cons_cons]
      have hcond : (('_' : Char) == '_' && d == '_') = false := by simp [hd]
      rw [hcond]
      simp only [Bool.false_eq_true, if_false, List.dropWhile_cons]
      simp

/-- Underscore-stripping absorbs a leading underscore fed to the collapse. -/
theorem stripU_collapse_cons_u (m : List Char) :
    stripUnderscores (collapseUnderscores ('_' :: m))
      = stripUnderscores (collapseUnderscores m) := by
  unfold stripUnderscores
  rw [dropU_collapse_cons_u]

/-- Underscore-stripping absorbs any run of leading underscores fed to the
collapse. -/
theorem stripU_collapse_replicate_append (n : Nat) (l : List Char) :
    stripUnderscores (collapseUnderscores (List.replicate n '_' ++ l))
      = stripUnderscores (collapseUnderscores l) := by
  induction n with
  | zero => simp
  | succ k ih =>
    rw [List.replicate_succ, List.cons_append, stripU_collapse_cons_u, ih]

/-- Appending one underscore either vanishes into a trailing underscore of
the collapsed list or lands at its end. -/
theorem collapse_append_u (l : List Char) :
    collapseUnderscores (l ++ ['_'])
      = if (collapseUnderscores l).getLast? = some '_' then collapseUnderscores l
        else collapseUnderscores l ++ ['_'] := by
  induction l with
  | nil => simp [collapseUnderscores]
  | cons c l2 ih =>
    cases l2 with
    | nil =>
      by_cases hc : c = '_'
      · subst hc
        have h1 : (['_'] : List Char) ++ ['_'] = '_' :: '_' :: [] := rfl
        rw [h1, collapse_uu]
        simp [collapseUnderscores]
      · have h1 : ([c] : List Char) ++ ['_'] = c :: '_' :: [] := rfl
        rw [h1, collapse_cons_cons]
        simp [hc, collapseUnderscores]
    | cons d l3 =>
      have hne : collapseUnderscores (d :: l3) ≠ [] := collapse_ne_nil _ (by simp)
      by_cases hcd : c = '_' ∧ d = '_'
      · obtain ⟨hc, hd⟩ := hcd
        subst hc
        subst hd
        rw [List.cons_append, List.cons_append, collapse_uu, ← List.cons_append, ih,
          collapse_uu]
      · have hcond : (c == '_' && d == '_') = false := by
          rcases not_and_or.mp hcd with h | h <;> simp [h]
        rw [List.cons_append, List.cons_append, collapse_cons_cons, hcond]
        simp only [Bool.false_eq_true, if_false]
        rw [← List.cons_append, ih, collapse_cons_cons, hcond]
        simp only [Bool.false_eq_true, if_false]
        obtain ⟨y, ys, hX⟩ := List.exists_cons_of_ne_nil hne
        rw [hX]
        rw [List.getLast?_cons_cons]
        by_cases hP : (y :: ys).getLast? = some '_'
        · rw [if_pos hP, if_pos hP]
        · rw [if_neg hP, if_neg hP]
          simp

/-- Underscore-stripping ignores one trailing underscore. -/
theorem stripU_append_u (x : List Char) :
    stripUnderscores (x ++ ['_']) = stripUnderscores x := by
  unfold stripUnderscores
  rw [List.dropWhile_append]
  by_cases hx : (x.dropWhile (fun c => c == '_')).isEmpty = true
  · rw [if_pos hx]
    rw [List.isEmpty_iff] at hx
    rw [hx]
    rfl
  · rw [if_neg hx]
    rw [List.reverse_append]
    simp

/-- Underscore-stripping absorbs one trailing underscore fed to the
collapse. -/
theorem stripU_collapse_append_u (l : List Char) :
    stripUnderscores (collapseUnderscores (l ++ ['_']))
      = stripUnderscores (collapseUnderscores l) := by
  rw [collapse_append_u]
  by_cases hP : (collapseUnderscores l).getLast? = some '_'
  · rw [if_pos hP]
  · rw [if_neg hP]
    exact stripU_append_u _

/-- Underscore-stripping absorbs any run of trailing underscores fed to
the collapse. -/
theorem stripU_collapse_append_replicate (n : Nat) :
    ∀ l : List Char,
      stripUnderscores (collapseUnderscores (l ++ List.replicate n '_'))
        = stripUnderscores (collapseUnderscores l) := by
  induction n with
  | zero => intro l; simp
  | succ k ih =>
    intro l
    have h1 : l ++ List.replicate (k + 1) '_' = (l ++ ['_']) ++ List.replicate k '_' := by
      rw [List.replicate_succ, List.append_assoc]
      rfl
    rw [h1, ih (l ++ ['_']), stripU_collapse_append_u]

/-- Whitespace never survives the replacement regex. -/
theorem ws_not_allowed (c : Char) (h : c.isWhitespace = true) :
    allowedChar c = false := by
  simp only [Char.isWhitespace] at h
  rcases Bool.or_eq_true_iff.mp h with h1 | h4
  · rcases Bool.or_eq_true_iff.mp h1 with h2 | h3
    · rcases Bool.or_eq_true_iff.mp h2 with h5 | h6
      · rw [show c = ' ' from by simpa using h5]
        decide
      · rw [show c = '\t' from by simpa using h6]
        decide
    · rw [show c = '\r' from by simpa using h3]
      decide
  · rw [show c = '\n' from by simpa using h4]
    decide

/-- The replacement regex turns an all-whitespace run into underscores. -/
theorem repl_all_ws (x : List Char) (h : ∀ c ∈ x, c.isWhitespace = true) :
    replaceDisallowed x = List.replicate x.length '_' := by
  induction x with
  | nil => rfl
  | cons c rest ih =>
    have hc := ws_not_allowed c (h c (List.mem_cons_self c rest))
    simp only [replaceDisallowed, List.map_cons, hc, List.length_cons,
      List.replicate_succ, Bool.false_eq_true, if_false]
    exact congrArg _ (ih (fun d hd => h d (List.mem_cons_of_mem c hd)))

/-- After the replacement regex, the input splits as underscores + the
replaced whitespace-stripped core + underscores. -/
theorem pyStripWs_decomp (l : List Char) :
    ∃ a b : Nat, replaceDisallowed l
      = List.replicate a '_' ++ (replaceDisallowed (pyStripWs l) ++ List.replicate b '_') := by
  refine ⟨(l.takeWhile Char.isWhitespace).length,
    ((l.dropWhile Char.isWhitespace).reverse.takeWhile Char.isWhitespace).length, ?_⟩
  have h2 : l.dropWhile Char.isWhitespace
      = pyStripWs l
        ++ ((l.dropWhile Char.isWhitespace).reverse.takeWhile Char.isWhitespace).reverse := by
    unfold pyStripWs
    conv_lhs => rw [← List.reverse_reverse (l.dropWhile Char.isWhitespace)]
    rw [← List.reverse_append]
    rw [List.takeWhile_append_dropWhile]
  have h1 : l = l.takeWhile Char.isWhitespace
      ++ (pyStripWs l
        ++ ((l.dropWhile Char.isWhitespace).reverse.takeWhile Char.isWhitespace).reverse) := by
    rw [← h2, List.takeWhile_append_dropWhile]
  have hta : replaceDisallowed (l.takeWhile Char.isWhitespace)
      = List.replicate (l.takeWhile Char.isWhitespace).length '_' :=
    repl_all_ws _ (fun c hc => List.mem_takeWhile_imp hc)
  have htb : replaceDisallowed
        ((l.dropWhile Char.isWhitespace).reverse.takeWhile Char.isWhitespace).reverse
      = List.replicate
          ((l.dropWhile Char.isWhitespace).reverse.takeWhile Char.isWhitespace).length '_' := by
    have hall : ∀ c ∈ ((l.dropWhile Char.isWhitespace).reverse.takeWhile
        Char.isWhitespace).reverse, c.isWhitespace = true :=
      fun c hc => List.mem_takeWhile_imp (List.mem_reverse.mp hc)
    rw [repl_all_ws _ hall, List.length_reverse]
  conv_lhs => rw [h1]
  unfold replaceDisallowed at hta htb ⊢
  rw [List.map_append, List.map_append, hta, htb]

/-- The whitespace pre-strip the code performs before the regex pipeline
is invisible after collapsing and trimming underscores. -/
theorem stripU_collapse_repl_strip (l : List Char) :
    stripUnderscores (collapseUnderscores (replaceDisallowed (pyStripWs l)))
      = stripUnderscores (collapseUnderscores (replaceDisallowed l)) := by
  obtain ⟨a, b, hd⟩ := pyStripWs_decomp l
  rw [hd, stripU_collapse_replicate_append, stripU_collapse_append_replicate]

/-- C6: subcategory-name normalization agrees, on every string, with the
spec's description (lowercase, replace disallowed characters with
underscores, collapse runs, trim edge underscores, empty becomes
"general" — with no whitespace pre-strip); in particular
"Road  Construction!" normalizes to "road_construction" and the empty
string to "general". -/
theorem clean_subcategory_name_matches_spec :
    (∀ s, clean_subcategory_name s = specNormalizeName s) ∧
    clean_subcategory_name "Road  Construction!" = "road_construction" ∧
    clean_subcategory_name "" = "general" := by
  refine ⟨?_, by decide, by decide⟩
  intro s
  by_cases hs : s = ""
  · subst hs
    decide
  · simp only [clean_subcategory_name, specNormalizeName, if_neg hs]
    rw [stripU_collapse_repl_strip (pyLower s.data)]
